import Mathlib

/-!
Verification of the E/C index calculator from the Takahashi et al. (2011)
notebook (`src/demos/takahashi2011_ECindex.ipynb`).

The notebook's numeric recipe (`compute_alpha`, `correction_factor`,
`compute_index`) is embedded shallowly:

* Floating-point values are idealised as exact elements of the field
  ℚ[√2] (`Q2`), wrapped in an IEEE-style type `FP` that models the special
  values NaN, +inf and -inf and their propagation through arithmetic.
  The constant `2 ** (1 / 2)` of the source is the exact √2 of `Q2`.
  Rounding error and overflow are not modelled; signed zero is not modelled.
* The external EOF library (`xeofs.single.EOF`) delegates: the fitted model
  (spatial patterns of the two modes plus their explained variances) is a
  parameter `fit` of `compute_index`; `model.transform` is embedded as the
  weighted projection of the data onto a mode's pattern, with the latitude
  weights (`sqrt(cos(lat))` in the library) a further parameter `w`, and
  `np.sqrt` a parameter `sqrtF`.
* `numpy.polynomial.polynomial.polyfit` is embedded exactly following
  `numpy.polynomial.polyutils._fit`: empty `x` raises
  `expected non-empty vector for x`, mismatched lengths raise
  `expected x and y to have same length`, and otherwise the coefficients
  are the minimum-norm least-squares solution of the column-scaled
  Vandermonde system (the column scaling `scl`, with its `scl[scl == 0] = 1`
  guard, only enters through the squared norms, which keeps the computation
  inside ℚ[√2]).  Rank deficiency produces a `RankWarning` only, not an
  error.  Non-finite inputs make the underlying LAPACK least-squares solver
  fail, modelled as the `SVD did not converge in Linear Least Squares` error.
* The xarray DJF pipeline (month filter, `QS-DEC` resample with skip-NaN
  means, `dropna`, `slice("1980", None)`, `+ pd.DateOffset(years=1)`) is
  embedded over explicit (year, month) timestamps.
-/

/-- The field ℚ[√2], represented as `(a + b·√2) / den` with integer
numerators and denominator.  All operations keep `den` positive (the
invariant assumed by `posB`); fractions are not reduced, so equality of
values is the cross-multiplied `eqB`, not structural equality.  Exact
carrier for the floating-point values appearing in the notebook's
computation. -/
@[ext]
structure Q2 where
  a : ℤ
  b : ℤ
  den : ℤ
deriving DecidableEq, Repr

namespace Q2

def ofInt (n : ℤ) : Q2 := ⟨n, 0, 1⟩

instance : Zero Q2 := ⟨⟨0, 0, 1⟩⟩
instance : One Q2 := ⟨⟨1, 0, 1⟩⟩
instance (n : ℕ) : OfNat Q2 n := ⟨⟨(OfNat.ofNat n : ℤ), 0, 1⟩⟩

def add (x y : Q2) : Q2 :=
  ⟨x.a * y.den + y.a * x.den, x.b * y.den + y.b * x.den, x.den * y.den⟩
def neg (x : Q2) : Q2 := ⟨-x.a, -x.b, x.den⟩
def sub (x y : Q2) : Q2 := add x (neg y)
def mul (x y : Q2) : Q2 :=
  ⟨x.a * y.a + 2 * x.b * y.b, x.a * y.b + x.b * y.a, x.den * y.den⟩

/-- Inverse: `((a + b√2)/d)⁻¹ = d·(a - b√2) / (a² - 2b²)`, sign-normalised
so the denominator stays positive; junk value `0` at `0`. -/
def inv (x : Q2) : Q2 :=
  let n : ℤ := x.a ^ 2 - 2 * x.b ^ 2
  if n = 0 then ⟨0, 0, 1⟩
  else if 0 < n then ⟨x.den * x.a, -(x.den * x.b), n⟩
  else ⟨-(x.den * x.a), x.den * x.b, -n⟩

instance : Add Q2 := ⟨add⟩
instance : Neg Q2 := ⟨neg⟩
instance : Sub Q2 := ⟨sub⟩
instance : Mul Q2 := ⟨mul⟩
instance : Inv Q2 := ⟨inv⟩
instance : Div Q2 := ⟨fun x y => mul x (inv y)⟩

/-- The element √2. -/
def sqrt2 : Q2 := ⟨0, 1, 1⟩

/-- The value 1/10 (the notebook's `0.1` step). -/
def tenth : Q2 := ⟨1, 0, 10⟩

/-- Value-level equality (the float `==`): cross-multiplied comparison of
the two coordinates. -/
def eqB (x y : Q2) : Bool :=
  decide (x.a * y.den = y.a * x.den ∧ x.b * y.den = y.b * x.den)

/-- Value-level test for zero (the float `== 0`). -/
def isZeroB (x : Q2) : Bool := decide (x.a = 0 ∧ x.b = 0)

/-- Decides `0 < (a + b·√2)/den` assuming `den > 0` (the invariant of all
constructed values), entirely in ℤ. -/
def posB (x : Q2) : Bool :=
  if 0 < x.a then
    (if 0 ≤ x.b then true else decide (2 * x.b ^ 2 < x.a ^ 2))
  else if x.a = 0 then decide (0 < x.b)
  else
    (if x.b ≤ 0 then false else decide (x.a ^ 2 < 2 * x.b ^ 2))

/-- Strict order on ℚ[√2], as the float `<` comparison. -/
def ltB (x y : Q2) : Bool := posB (sub y x)

def minQ (x y : Q2) : Q2 := if ltB y x then y else x
def maxQ (x y : Q2) : Q2 := if ltB x y then y else x

/-- There is no rational square root of 2: `a² ≠ 2·b²` for `b ≠ 0`. -/
theorem rat_sq_ne_two_mul_sq (a b : ℚ) (hb : b ≠ 0) : a ^ 2 ≠ 2 * b ^ 2 := by
  intro h
  have hq : ((a / b : ℚ) : ℝ) ^ 2 = 2 := by
    push_cast
    rw [div_pow]
    rw [div_eq_iff (by positivity : ((b : ℝ)) ^ 2 ≠ 0)]
    exact_mod_cast h
  have habs : |((a / b : ℚ) : ℝ)| = Real.sqrt 2 := by
    rw [← Real.sqrt_sq_eq_abs, hq]
  exact irrational_sqrt_two ⟨|a / b|, by rw [Rat.cast_abs]; exact habs⟩

/-- Integer version: no integer solution of `a² = 2·b²` with `b ≠ 0`. -/
theorem sq_ne_two_mul_sq (a b : ℤ) (hb : b ≠ 0) : a ^ 2 ≠ 2 * b ^ 2 := by
  intro h
  have hq : (a : ℚ) ^ 2 = 2 * (b : ℚ) ^ 2 := by exact_mod_cast h
  exact rat_sq_ne_two_mul_sq (a : ℚ) (b : ℚ) (by exact_mod_cast hb) hq

theorem posB_neg_of_posB {x : Q2} (h : posB x = true) : posB (neg x) = false := by
  rcases x with ⟨a, b, d⟩
  simp only [posB, neg] at h ⊢
  rcases lt_trichotomy a 0 with ha | ha | ha
  · -- a < 0: posB true forces b > 0 and a² < 2b²
    rw [if_neg (by linarith), if_neg (by linarith)] at h
    rcases le_or_lt b 0 with hb | hb
    · rw [if_pos hb] at h; exact absurd h (by simp)
    · rw [if_neg (by linarith)] at h
      have hlt : a ^ 2 < 2 * b ^ 2 := by
        by_contra hc
        rw [decide_eq_true_eq] at h; exact hc h
      rw [if_pos (by linarith : (0:ℤ) < -a), if_neg (by linarith : ¬ (0:ℤ) ≤ -b)]
      rw [decide_eq_false_iff_not]
      intro hc
      have : 2 * (-b) ^ 2 = 2 * b ^ 2 := by ring
      nlinarith
  · -- a = 0: posB true forces b > 0
    subst ha
    rw [if_neg (by linarith), if_pos rfl, decide_eq_true_eq] at h
    simp only [neg_zero]
    rw [if_pos trivial, if_neg (lt_irrefl (0:ℤ)), decide_eq_false_iff_not]
    linarith
  · -- a > 0
    rw [if_pos ha] at h
    rw [if_neg (by linarith : ¬ (0:ℤ) < -a), if_neg (by linarith : ¬ -a = 0)]
    rcases le_or_lt 0 b with hb | hb
    · rw [if_pos (by linarith : -b ≤ 0)]
    · rw [if_neg (by linarith : ¬ (0:ℤ) ≤ b), decide_eq_true_eq] at h
      rw [if_neg (by linarith : ¬ -b ≤ 0), decide_eq_false_iff_not]
      intro hc
      nlinarith

theorem posB_neg_of_not_posB {x : Q2} (hx : isZeroB x = false) (h : posB x = false) :
    posB (neg x) = true := by
  rcases x with ⟨a, b, d⟩
  have hz : ¬ (a = 0 ∧ b = 0) := by
    intro hc
    rw [isZeroB, decide_eq_false_iff_not] at hx
    exact hx hc
  simp only [posB, neg] at h ⊢
  rcases lt_trichotomy a 0 with ha | ha | ha
  · -- a < 0
    rw [if_neg (by linarith), if_neg (by linarith)] at h
    rw [if_pos (by linarith : (0:ℤ) < -a)]
    rcases le_or_lt b 0 with hb | hb
    · rw [if_pos (by linarith : (0:ℤ) ≤ -b)]
    · -- b > 0 and posB = false means 2b² ≤ a²; strict by irrationality
      rw [if_neg (by linarith), decide_eq_false_iff_not] at h
      have hle : 2 * b ^ 2 ≤ a ^ 2 := by linarith [not_lt.mp h]
      have hne : a ^ 2 ≠ 2 * b ^ 2 := sq_ne_two_mul_sq a b (by linarith)
      rw [if_neg (by linarith : ¬ (0:ℤ) ≤ -b), decide_eq_true_eq]
      have : 2 * b ^ 2 < a ^ 2 := lt_of_le_of_ne hle (fun hc => hne hc.symm)
      nlinarith
  · -- a = 0: posB = false forces b ≤ 0, and b ≠ 0
    subst ha
    rw [if_neg (by linarith), if_pos rfl, decide_eq_false_iff_not, not_lt] at h
    have hb : b < 0 := lt_of_le_of_ne h (fun hc => hz ⟨rfl, hc⟩)
    simp only [neg_zero]
    rw [if_pos trivial, if_neg (lt_irrefl (0:ℤ)), decide_eq_true_eq]
    linarith
  · -- a > 0: posB = false forces b < 0 with a² ≤ 2b²; strict by irrationality
    rw [if_pos ha] at h
    rcases le_or_lt 0 b with hb | hb
    · rw [if_pos hb] at h; exact absurd h (by simp)
    · rw [if_neg (by linarith), decide_eq_false_iff_not] at h
      have hle : a ^ 2 ≤ 2 * b ^ 2 := by linarith [not_lt.mp h]
      have hne : a ^ 2 ≠ 2 * b ^ 2 := sq_ne_two_mul_sq a b (by linarith)
      rw [if_neg (by linarith : ¬ (0:ℤ) < -a), if_neg (by linarith : ¬ -a = 0),
        if_neg (by linarith : ¬ -b ≤ 0), decide_eq_true_eq]
      have : a ^ 2 < 2 * b ^ 2 := lt_of_le_of_ne hle hne
      nlinarith

theorem posB_zero : posB 0 = false := by decide

end Q2

/-- IEEE-style float idealisation: exact values in ℚ[√2] plus the special
values `+inf`, `-inf` and `NaN`.  Rounding and signed zero are not modelled. -/
inductive FP where
  | fin (q : Q2)
  | inf
  | neginf
  | nan
deriving DecidableEq, Repr

namespace FP

def isNaN : FP → Bool
  | nan => true
  | _ => false

def isFinite : FP → Bool
  | fin _ => true
  | _ => false

end FP

def fpNeg : FP → FP
  | .fin q => .fin (Q2.neg q)
  | .inf => .neginf
  | .neginf => .inf
  | .nan => .nan

def fpAdd : FP → FP → FP
  | .nan, _ => .nan
  | _, .nan => .nan
  | .fin a, .fin b => .fin (Q2.add a b)
  | .fin _, .inf => .inf
  | .inf, .fin _ => .inf
  | .fin _, .neginf => .neginf
  | .neginf, .fin _ => .neginf
  | .inf, .inf => .inf
  | .neginf, .neginf => .neginf
  | .inf, .neginf => .nan
  | .neginf, .inf => .nan

def fpSub (x y : FP) : FP := fpAdd x (fpNeg y)

def fpMul : FP → FP → FP
  | .nan, _ => .nan
  | _, .nan => .nan
  | .fin a, .fin b => .fin (Q2.mul a b)
  | .fin a, .inf => if Q2.isZeroB a then .nan else if Q2.posB a then .inf else .neginf
  | .inf, .fin a => if Q2.isZeroB a then .nan else if Q2.posB a then .inf else .neginf
  | .fin a, .neginf => if Q2.isZeroB a then .nan else if Q2.posB a then .neginf else .inf
  | .neginf, .fin a => if Q2.isZeroB a then .nan else if Q2.posB a then .neginf else .inf
  | .inf, .inf => .inf
  | .neginf, .neginf => .inf
  | .inf, .neginf => .neginf
  | .neginf, .inf => .neginf

def fpDiv : FP → FP → FP
  | .nan, _ => .nan
  | _, .nan => .nan
  | .fin a, .fin b =>
      if Q2.isZeroB b then (if Q2.isZeroB a then .nan else if Q2.posB a then .inf else .neginf)
      else .fin (Q2.mul a (Q2.inv b))
  | .fin _, .inf => .fin 0
  | .fin _, .neginf => .fin 0
  | .inf, .fin b => if Q2.posB (Q2.neg b) then .neginf else .inf
  | .neginf, .fin b => if Q2.posB (Q2.neg b) then .inf else .neginf
  | .inf, .inf => .nan
  | .inf, .neginf => .nan
  | .neginf, .inf => .nan
  | .neginf, .neginf => .nan

/-- Float `<`: any comparison with NaN is false. -/
def fpLtB : FP → FP → Bool
  | .nan, _ => false
  | _, .nan => false
  | .fin a, .fin b => Q2.ltB a b
  | .fin _, .inf => true
  | .fin _, .neginf => false
  | .inf, _ => false
  | .neginf, .neginf => false
  | .neginf, _ => true

/-- The constant `2 ** (1 / 2)` of the source, idealised as the exact √2. -/
def sqrtTwo : FP := .fin Q2.sqrt2

def fpSum (l : List FP) : FP := l.foldl fpAdd (.fin 0)

/-- Mean of a list of float values with NaN skipped, as xarray's
`mean()` / `resample(...).mean()` with the default `skipna=True`:
NaN when no non-NaN value remains. -/
def skipMean (l : List FP) : FP :=
  if (l.filter (fun x => !x.isNaN)).length = 0 then .nan
  else fpDiv (fpSum (l.filter (fun x => !x.isNaN)))
    (.fin (Q2.ofInt ((l.filter (fun x => !x.isNaN)).length : ℤ)))

/-- A monthly timestamp (year, month), month in 1..12 for well-formed data. -/
structure Ym where
  year : ℤ
  month : ℤ
deriving DecidableEq, Repr

/-- Month is December, January or February (`time.dt.month.isin([12, 1, 2])`). -/
def isDJF (t : Ym) : Bool := t.month == 12 || t.month == 1 || t.month == 2

/-- Start of the `QS-DEC` quarter containing `t` (quarters DJF, MAM, JJA, SON),
the label assigned by `resample(time="QS-DEC")`. -/
def seasonStart (t : Ym) : Ym :=
  if t.month == 12 then ⟨t.year, 12⟩
  else if t.month ≤ 2 then ⟨t.year - 1, 12⟩
  else if t.month ≤ 5 then ⟨t.year, 3⟩
  else if t.month ≤ 8 then ⟨t.year, 6⟩
  else ⟨t.year, 9⟩

/-- `x + pd.DateOffset(years=1)`. -/
def addYear (t : Ym) : Ym := ⟨t.year + 1, t.month⟩

/-- First-occurrence deduplication (grouping keys in order of appearance). -/
def dedupF {α : Type} [DecidableEq α] (l : List α) : List α :=
  l.foldl (fun acc a => if a ∈ acc then acc else acc ++ [a]) []

/-- `pc.sel(time=pc.time.dt.month.isin([12, 1, 2]))`. -/
def djfFiltered (s : List (Ym × FP)) : List (Ym × FP) := s.filter (fun p => isDJF p.1)

/-- The distinct `QS-DEC` season labels of the month-filtered series, in
order of appearance (chronological for sorted input). -/
def djfLabels (s : List (Ym × FP)) : List Ym :=
  dedupF ((djfFiltered s).map (fun p => seasonStart p.1))

/-- The values falling into the season labelled `lab`. -/
def seasonGroup (s : List (Ym × FP)) (lab : Ym) : List FP :=
  ((djfFiltered s).filter (fun p => seasonStart p.1 == lab)).map Prod.snd

/-- The winter seasonal series feeding the alpha fit, as built in
`compute_index`: filter months to {12, 1, 2}, resample to `QS-DEC` seasonal
skip-NaN means, `dropna("time")`, `sel(time=slice("1980", None))`, then shift
each label by one year (`pd.DateOffset(years=1)`). -/
def djfSeasonal (s : List (Ym × FP)) : List (Ym × FP) :=
  ((((djfLabels s).map (fun lab => (lab, skipMean (seasonGroup s lab)))).filter
      (fun p => !p.2.isNaN)).filter
    (fun p => decide (1980 ≤ p.1.year))).map (fun p => (addYear p.1, p.2))

namespace Q2

/-- Fuelled integer Newton iteration for the floor square root:
`next = (g + n/g)/2` strictly decreases until it reaches `⌊√n⌋`. -/
def isqrtIter : ℕ → ℕ → ℕ → ℕ
  | 0, _, g => g
  | f + 1, n, g =>
      let next := (g + n / g) / 2
      if next < g then isqrtIter f n next else g

/-- Floor square root on ℕ (structurally recursive, so it reduces in the
kernel; the fuel `n` strictly bounds the number of Newton steps). -/
def isqrtN (n : ℕ) : ℕ := if n ≤ 1 then n else isqrtIter n n (n / 2 + 1)

/-- Floor of `A + B·√2` for integers `A`, `B` (exact: `⌊B√2⌋ = ⌊√(2B²)⌋`
for `B ≥ 0`, and `2B²` is a perfect square only at `B = 0`). -/
def floorIntComb (A B : ℤ) : ℤ :=
  let m : ℕ := 2 * B.natAbs ^ 2
  let s : ℕ := isqrtN m
  if 0 ≤ B then A + s
  else A - s - (if m = s ^ 2 then 0 else 1)

/-- Floor of an element of ℚ[√2], exact for the positive-denominator
invariant (`⌊z/d⌋ = ⌊⌊z⌋/d⌋` for integer `d > 0`). -/
def floorQ2 (x : Q2) : ℤ := Int.fdiv (floorIntComb x.a x.b) x.den

def ceilQ2 (x : Q2) : ℤ := -(floorQ2 (neg x))

end Q2

def sumQ (l : List Q2) : Q2 := l.foldl Q2.add 0

def minList (l : List Q2) : Q2 :=
  match l with
  | [] => 0
  | h :: t => t.foldl Q2.minQ h

def maxList (l : List Q2) : Q2 :=
  match l with
  | [] => 0
  | h :: t => t.foldl Q2.maxQ h

/-- `np.arange(start, stop, step)` for a positive step:
`start + k*step` for `0 ≤ k < ceil((stop - start) / step)`. -/
def arangeQ (start stop step : Q2) : List Q2 :=
  let n : ℤ := Q2.ceilQ2 ((stop - start) / step)
  (List.range n.toNat).map (fun k => start + Q2.ofInt (k : ℤ) * step)

/-- `poly.polyval(x, c)` for degree-2 coefficients `(c0, c1, c2)`. -/
def polyval2 (c : Q2 × Q2 × Q2) (x : Q2) : Q2 := c.1 + c.2.1 * x + c.2.2 * x * x

/-- Value-level first-occurrence deduplication of abscissae (floats with
equal values are the same abscissa regardless of representation). -/
def dedupQ2 (l : List Q2) : List Q2 :=
  l.foldl (fun acc x => if acc.any (fun y => Q2.eqB x y) then acc else acc ++ [x]) []

/-- `poly.polyfit(x, y, deg=2)` on finite data, in exact arithmetic,
following `numpy.polynomial.polyutils._fit`: the returned coefficients are
the minimum-norm least-squares solution of the column-scaled Vandermonde
system `V c = y`, rescaled back.  The column scaling only enters through the
squared column norms `s0, s1, s2` (with numpy's `scl[scl == 0] = 1` guard).
With `k` distinct abscissae the Vandermonde rank is `min(k, 3)`:
for `k ≥ 3` the scaling cancels and the solution solves the normal
equations (Cramer); for `k ≤ 2` the least-squares optimum interpolates the
per-abscissa means and the minimum-norm representative is
`c = S⁻¹ Wᵀ (W S⁻¹ Wᵀ)⁻¹ ȳ` for the deduplicated Vandermonde `W`,
`S = diag(s0, s1, s2)`.  Rank deficiency emits only a `RankWarning`. -/
def polyfit2 (xs ys : List Q2) : Q2 × Q2 × Q2 :=
  let n : Q2 := Q2.ofInt (xs.length : ℤ)
  let s0 : Q2 := if Q2.isZeroB n then 1 else n
  let s1 : Q2 := let v := sumQ (xs.map (fun x => x * x)); if Q2.isZeroB v then 1 else v
  let s2 : Q2 :=
    let v := sumQ (xs.map (fun x => x * x * x * x)); if Q2.isZeroB v then 1 else v
  match dedupQ2 xs with
  | [] => (0, 0, 0)
  | [x1] =>
      let ybar := sumQ ys / n
      let d := 1 / s0 + x1 * x1 / s1 + x1 * x1 * x1 * x1 / s2
      let z := ybar / d
      (z / s0, x1 * z / s1, x1 * x1 * z / s2)
  | x1 :: x2 :: [] =>
      let g1 := (xs.zip ys).filter (fun p => Q2.eqB p.1 x1)
      let g2 := (xs.zip ys).filter (fun p => Q2.eqB p.1 x2)
      let y1 := sumQ (g1.map Prod.snd) / Q2.ofInt (g1.length : ℤ)
      let y2 := sumQ (g2.map Prod.snd) / Q2.ofInt (g2.length : ℤ)
      let m11 := 1 / s0 + x1 * x1 / s1 + x1 * x1 * x1 * x1 / s2
      let m12 := 1 / s0 + x1 * x2 / s1 + x1 * x1 * x2 * x2 / s2
      let m22 := 1 / s0 + x2 * x2 / s1 + x2 * x2 * x2 * x2 / s2
      let det := m11 * m22 - m12 * m12
      let z1 := (m22 * y1 - m12 * y2) / det
      let z2 := (m11 * y2 - m12 * y1) / det
      ((z1 + z2) / s0, (x1 * z1 + x2 * z2) / s1, (x1 * x1 * z1 + x2 * x2 * z2) / s2)
  | _ =>
      let p1 := sumQ xs
      let p2 := sumQ (xs.map (fun x => x * x))
      let p3 := sumQ (xs.map (fun x => x * x * x))
      let p4 := sumQ (xs.map (fun x => x * x * x * x))
      let b0 := sumQ ys
      let b1 := sumQ ((xs.zip ys).map (fun p => p.1 * p.2))
      let b2 := sumQ ((xs.zip ys).map (fun p => p.1 * p.1 * p.2))
      let det := n * (p2 * p4 - p3 * p3) - p1 * (p1 * p4 - p2 * p3)
        + p2 * (p1 * p3 - p2 * p2)
      let d0 := b0 * (p2 * p4 - p3 * p3) - p1 * (b1 * p4 - p3 * b2)
        + p2 * (b1 * p3 - p2 * b2)
      let d1 := n * (b1 * p4 - p3 * b2) - b0 * (p1 * p4 - p3 * p2)
        + p2 * (p1 * b2 - b1 * p2)
      let d2 := n * (p2 * b2 - b1 * p3) - p1 * (p1 * b2 - b1 * p2)
        + b0 * (p1 * p3 - p2 * p2)
      (d0 / det, d1 / det, d2 / det)

def fpToQ2 : FP → Q2
  | .fin q => q
  | _ => 0

/-- `compute_alpha(pc1, pc2)` of the notebook: degree-2 polynomial fit of
`pc2` against `pc1`, returning the quadratic coefficient `coefs[-1]`, the
dense abscissa grid `np.arange(pc1.min(), pc1.max() + 0.1, 0.1)` and the
fitted curve on it.  Failure modes are those of
`numpy.polynomial.polynomial.polyfit` (see `polyfit2`). -/
def compute_alpha (pc1 pc2 : List FP) : Except String (Q2 × List Q2 × List Q2) :=
  if pc1.length = 0 then .error "expected non-empty vector for x"
  else if pc1.length ≠ pc2.length then .error "expected x and y to have same length"
  else if (pc1 ++ pc2).all (fun v => v.isFinite) then
    let xs := pc1.map fpToQ2
    let ys := pc2.map fpToQ2
    let coefs := polyfit2 xs ys
    let xfit := arangeQ (minList xs) (maxList xs + Q2.tenth) Q2.tenth
    .ok (coefs.2.2, xfit, xfit.map (polyval2 coefs))
  else .error "SVD did not converge in Linear Least Squares"

/-- A gridded anomaly field: coordinate axes plus a valuation.  Dimensions
`time`, `lat`, `lon`; invariant of the spec: `lat` ascending, `lon` in the
0–360 convention, `time` strictly increasing monthly stamps. -/
structure GriddedField where
  times : List Ym
  lats : List ℚ
  lons : List ℚ
  val : Ym → ℚ → ℚ → FP

/-- A materialised (time × lat × lon) block of data, as handed to the EOF
library: only the values at the retained coordinates are present. -/
structure SubsetData where
  times : List Ym
  lats : List ℚ
  lons : List ℚ
  vals : List (List (List FP))
deriving DecidableEq, Repr

/-- `tos_anom.sel(lat=slice(-20, 20), lon=slice(100, 280))` — xarray label
slices are inclusive at both endpoints.  The selected values are
materialised, mirroring that downstream computation sees only in-box data. -/
def tropicalPacific (f : GriddedField) : SubsetData :=
  let lats := f.lats.filter (fun la => decide (-20 ≤ la ∧ la ≤ 20))
  let lons := f.lons.filter (fun lo => decide (100 ≤ lo ∧ lo ≤ 280))
  { times := f.times, lats := lats, lons := lons,
    vals := f.times.map (fun t => lats.map (fun la => lons.map (fun lo => f.val t la lo))) }

/-- `sel(time=slice(*base_period))` for a whole-year base period, as the
notebook's `base_period = ("1991", "2020")`: keep stamps with
`y1 ≤ year ≤ y2`. -/
def selYears (d : SubsetData) (y1 y2 : ℤ) : SubsetData :=
  let tv := (d.times.zip d.vals).filter (fun p => decide (y1 ≤ p.1.year ∧ p.1.year ≤ y2))
  { times := tv.map Prod.fst, lats := d.lats, lons := d.lons, vals := tv.map Prod.snd }

/-- The state of the fitted 2-mode EOF decomposition, as consumed by
`compute_index`: a spatial pattern per mode on the subset grid
(`model.components()`) and the two explained variances
(`model.explained_variance()`). -/
structure EOFModel where
  comps1 : List (List FP)
  comps2 : List (List FP)
  var1 : FP
  var2 : FP
deriving DecidableEq, Repr

/-- One latitude row of the projection: the weighted component row dotted
with the data row. -/
def transRow (w : ℚ → FP) (la : ℚ) (crow vrow : List FP) : FP :=
  fpSum ((crow.zip vrow).map (fun q => fpMul (fpMul (w la) q.1) q.2))

/-- `model.transform(X)` for one mode: projection of the latitude-weighted
data onto the mode's spatial pattern, one value per time step.  `w` is the
library's latitude weight (`sqrt(cos(lat))` for `use_coslat=True`). -/
def transform (w : ℚ → FP) (comps : List (List FP)) (d : SubsetData) : List FP :=
  d.vals.map (fun slab =>
    fpSum ((d.lats.zip (comps.zip slab)).map (fun p => transRow w p.1 p.2.1 p.2.2)))

/-- One latitude row of a spatial pattern restricted to the sign-reference
longitudes 140–180°E. -/
def rowBox (lons : List ℚ) (row : List FP) : List FP :=
  ((lons.zip row).filter (fun q => decide (140 ≤ q.1 ∧ q.1 ≤ 180))).map Prod.snd

/-- The values of a pattern inside the sign-reference box 5°S–5°N, 140–180°E. -/
def boxVals (lats lons : List ℚ) (comps : List (List FP)) : List FP :=
  (((lats.zip comps).filter (fun p => decide (-5 ≤ p.1 ∧ p.1 ≤ 5))).map
    (fun p => rowBox lons p.2)).flatten

/-- `_eofs.sel(mode=m, lat=slice(-5, 5), lon=slice(140, 180)).mean()`:
skip-NaN mean of a mode's pattern over the sign-reference box. -/
def boxMean (lats lons : List ℚ) (comps : List (List FP)) : FP :=
  skipMean (boxVals lats lons comps)

/-- `correction_factor(model)` of the notebook: per mode,
`1 if mean > 0 else -1` on the sign-box mean of the mode's pattern. -/
def correction_factor (lats lons : List ℚ) (model : EOFModel) : FP × FP :=
  ((if fpLtB (.fin 0) (boxMean lats lons model.comps1) then .fin 1 else .fin (Q2.neg 1)),
   (if fpLtB (.fin 0) (boxMean lats lons model.comps2) then .fin 1 else .fin (Q2.neg 1)))

/-- The tuple returned by `compute_index`: the merged E/C dataset, the scaled
sign-corrected PCs, the DJF seasonal PCs, alpha and the fitted curve. -/
structure ECOutput where
  times : List Ym
  eindex : List FP
  cindex : List FP
  pc1 : List FP
  pc2 : List FP
  djf1 : List (Ym × FP)
  djf2 : List (Ym × FP)
  alpha : Q2
  xfit : List Q2
  fitv : List Q2
deriving DecidableEq, Repr

/-- `pcs = model.transform(tos_anom) * scale_factor * corr_factor` for one
mode: the raw projection scaled by `1 / np.sqrt(explained_variance)` and by
the sign-correction factor. -/
def scaledPC (t : List FP) (scale corr : FP) : List FP :=
  t.map (fun x => fpMul (fpMul x scale) corr)

/-- The tail of `compute_index` once the two scaled, sign-corrected PCs are
in hand: the 45° rotation `E = (pc1 - pc2)/√2`, `C = (pc1 + pc2)/√2`, the
DJF seasonal pipeline and `compute_alpha`.  Exceptions propagate — the
notebook catches nothing. -/
def finishIndex (d : SubsetData) (pc1 pc2 : List FP) : Except String ECOutput :=
  match compute_alpha ((djfSeasonal (d.times.zip pc1)).map Prod.snd)
      ((djfSeasonal (d.times.zip pc2)).map Prod.snd) with
  | .error e => .error e
  | .ok r => .ok { times := d.times,
                   eindex := List.zipWith (fun x y => fpDiv (fpSub x y) sqrtTwo) pc1 pc2,
                   cindex := List.zipWith (fun x y => fpDiv (fpAdd x y) sqrtTwo) pc1 pc2,
                   pc1 := pc1, pc2 := pc2,
                   djf1 := djfSeasonal (d.times.zip pc1),
                   djf2 := djfSeasonal (d.times.zip pc2),
                   alpha := r.1, xfit := r.2.1, fitv := r.2.2 }

/-- Body of `compute_index` after the tropical-Pacific subset: EOF fit on
the base period (delegated to `fit`, with a library failure surfaced),
scale factors `1 / np.sqrt(explained_variance)`, sign correction, projection
of the full series, then the rotation/alpha tail. -/
def compute_index_sub (sqrtF : FP → FP) (w : ℚ → FP)
    (fit : SubsetData → Except String EOFModel) (y1 y2 : ℤ) (d : SubsetData) :
    Except String ECOutput :=
  match fit (selYears d y1 y2) with
  | .error e => .error e
  | .ok model =>
    finishIndex d
      (scaledPC (transform w model.comps1 d) (fpDiv (.fin 1) (sqrtF model.var1))
        (correction_factor d.lats d.lons model).1)
      (scaledPC (transform w model.comps2 d) (fpDiv (.fin 1) (sqrtF model.var2))
        (correction_factor d.lats d.lons model).2)

/-- `compute_index(tos_anom, base_period)`: regional subset first, then the
rest of the pipeline on the subset. -/
def compute_index (sqrtF : FP → FP) (w : ℚ → FP)
    (fit : SubsetData → Except String EOFModel) (f : GriddedField) (y1 y2 : ℤ) :
    Except String ECOutput :=
  compute_index_sub sqrtF w fit y1 y2 (tropicalPacific f)

namespace Q2

theorem zero_def : (0 : Q2) = ⟨0, 0, 1⟩ := rfl

theorem one_def : (1 : Q2) = ⟨1, 0, 1⟩ := rfl

theorem neg_zero_eq : neg 0 = 0 := by
  rw [zero_def]
  show neg ⟨0, 0, 1⟩ = ⟨0, 0, 1⟩
  simp [neg]

theorem neg_neg_eq (x : Q2) : neg (neg x) = x := by
  ext <;> simp [neg]

theorem isZeroB_neg (x : Q2) : isZeroB (neg x) = isZeroB x := by
  rcases x with ⟨a, b, d⟩
  simp [isZeroB, neg, decide_eq_decide, neg_eq_zero]

theorem posB_neg_eq {x : Q2} (hx : isZeroB x = false) : posB (neg x) = !posB x := by
  cases hpos : posB x
  · simp [posB_neg_of_not_posB hx hpos]
  · simp [posB_neg_of_posB hpos]

theorem sub_zero_eq (x : Q2) : sub x 0 = x := by
  rcases x with ⟨a, b, d⟩
  rw [zero_def]
  simp [sub, add, neg]

theorem add_neg_neg_eq (x y : Q2) : add (neg x) (neg y) = neg (add x y) := by
  ext <;> simp [add, neg] <;> ring

theorem mul_neg_left_eq (x y : Q2) : mul (neg x) y = neg (mul x y) := by
  ext <;> simp [mul, neg] <;> ring

theorem mul_neg_right_eq (x y : Q2) : mul x (neg y) = neg (mul x y) := by
  ext <;> simp [mul, neg] <;> ring

theorem one_mul_eq (x : Q2) : mul 1 x = x := by
  rcases x with ⟨a, b, d⟩
  rw [one_def]
  simp [mul]

theorem negone_mul_eq (x : Q2) : mul (neg 1) x = neg x := by
  rcases x with ⟨a, b, d⟩
  rw [one_def]
  ext <;> simp [mul, neg]

end Q2

theorem isNaN_fpNeg (x : FP) : (fpNeg x).isNaN = x.isNaN := by
  cases x <;> rfl

theorem fpNeg_fpNeg (x : FP) : fpNeg (fpNeg x) = x := by
  cases x <;> simp [fpNeg, Q2.neg_neg_eq]

theorem fpNeg_zero : fpNeg (.fin 0) = .fin 0 := by
  simp [fpNeg, Q2.neg_zero_eq]

theorem fpAdd_neg_neg (x y : FP) : fpAdd (fpNeg x) (fpNeg y) = fpNeg (fpAdd x y) := by
  cases x <;> cases y <;> simp [fpAdd, fpNeg, Q2.add_neg_neg_eq]

theorem fpMul_neg_left (x y : FP) : fpMul (fpNeg x) y = fpNeg (fpMul x y) := by
  cases x with
  | nan => cases y <;> rfl
  | inf =>
      cases y with
      | fin b =>
          cases hz : Q2.isZeroB b
          · cases hp : Q2.posB b <;> simp [fpMul, fpNeg, hz, hp]
          · simp [fpMul, fpNeg, hz]
      | _ => rfl
  | neginf =>
      cases y with
      | fin b =>
          cases hz : Q2.isZeroB b
          · cases hp : Q2.posB b <;> simp [fpMul, fpNeg, hz, hp]
          · simp [fpMul, fpNeg, hz]
      | _ => rfl
  | fin a =>
      cases y with
      | fin b => simp [fpMul, fpNeg, Q2.mul_neg_left_eq]
      | nan => rfl
      | inf =>
          cases hz : Q2.isZeroB a
          · cases hp : Q2.posB a <;>
              simp [fpMul, fpNeg, hz, hp, Q2.isZeroB_neg, Q2.posB_neg_eq hz]
          · simp [fpMul, fpNeg, hz, Q2.isZeroB_neg]
      | neginf =>
          cases hz : Q2.isZeroB a
          · cases hp : Q2.posB a <;>
              simp [fpMul, fpNeg, hz, hp, Q2.isZeroB_neg, Q2.posB_neg_eq hz]
          · simp [fpMul, fpNeg, hz, Q2.isZeroB_neg]

theorem fpMul_neg_right (x y : FP) : fpMul x (fpNeg y) = fpNeg (fpMul x y) := by
  cases y with
  | nan => cases x <;> rfl
  | inf =>
      cases x with
      | fin b =>
          cases hz : Q2.isZeroB b
          · cases hp : Q2.posB b <;> simp [fpMul, fpNeg, hz, hp]
          · simp [fpMul, fpNeg, hz]
      | _ => rfl
  | neginf =>
      cases x with
      | fin b =>
          cases hz : Q2.isZeroB b
          · cases hp : Q2.posB b <;> simp [fpMul, fpNeg, hz, hp]
          · simp [fpMul, fpNeg, hz]
      | _ => rfl
  | fin a =>
      cases x with
      | fin b => simp [fpMul, fpNeg, Q2.mul_neg_right_eq]
      | nan => rfl
      | inf =>
          cases hz : Q2.isZeroB a
          · cases hp : Q2.posB a <;>
              simp [fpMul, fpNeg, hz, hp, Q2.isZeroB_neg, Q2.posB_neg_eq hz]
          · simp [fpMul, fpNeg, hz, Q2.isZeroB_neg]
      | neginf =>
          cases hz : Q2.isZeroB a
          · cases hp : Q2.posB a <;>
              simp [fpMul, fpNeg, hz, hp, Q2.isZeroB_neg, Q2.posB_neg_eq hz]
          · simp [fpMul, fpNeg, hz, Q2.isZeroB_neg]

theorem fpDiv_neg_left (x y : FP) : fpDiv (fpNeg x) y = fpNeg (fpDiv x y) := by
  cases x with
  | nan => cases y <;> rfl
  | inf =>
      cases y with
      | fin b => cases hpb : Q2.posB (Q2.neg b) <;> simp [fpDiv, fpNeg, hpb]
      | _ => rfl
  | neginf =>
      cases y with
      | fin b => cases hpb : Q2.posB (Q2.neg b) <;> simp [fpDiv, fpNeg, hpb]
      | _ => rfl
  | fin a =>
      cases y with
      | nan => rfl
      | inf => simp [fpDiv, fpNeg, Q2.neg_zero_eq]
      | neginf => simp [fpDiv, fpNeg, Q2.neg_zero_eq]
      | fin b =>
          cases hzb : Q2.isZeroB b
          · simp [fpDiv, fpNeg, hzb, Q2.mul_neg_left_eq]
          · cases hza : Q2.isZeroB a
            · cases hpa : Q2.posB a <;>
                simp [fpDiv, fpNeg, hzb, hza, Q2.isZeroB_neg, Q2.posB_neg_eq hza, hpa]
            · simp [fpDiv, fpNeg, hzb, hza, Q2.isZeroB_neg]

theorem fpLtB_zero_fin (m : Q2) : fpLtB (.fin 0) (.fin m) = Q2.posB m := by
  simp [fpLtB, Q2.ltB, Q2.sub_zero_eq]

/-- Negate one spatial pattern (the arbitrary sign choice of the EOF
library applied to a mode's raw components). -/
def negComps (c : List (List FP)) : List (List FP) := c.map (fun r => r.map fpNeg)

/-- A decomposition library returning the opposite sign for mode 1. -/
def negFitMode1 (fit : SubsetData → Except String EOFModel) :
    SubsetData → Except String EOFModel :=
  fun d => (fit d).map (fun m => ⟨negComps m.comps1, m.comps2, m.var1, m.var2⟩)

/-- A decomposition library returning the opposite sign for mode 2. -/
def negFitMode2 (fit : SubsetData → Except String EOFModel) :
    SubsetData → Except String EOFModel :=
  fun d => (fit d).map (fun m => ⟨m.comps1, negComps m.comps2, m.var1, m.var2⟩)

theorem fpSum_map_neg (l : List FP) : fpSum (l.map fpNeg) = fpNeg (fpSum l) := by
  have key : ∀ acc, (l.map fpNeg).foldl fpAdd (fpNeg acc) = fpNeg (l.foldl fpAdd acc) := by
    induction l with
    | nil => intro acc; rfl
    | cons h t ih =>
        intro acc
        simp only [List.map_cons, List.foldl_cons, fpAdd_neg_neg]
        exact ih (fpAdd acc h)
  have := key (.fin 0)
  rwa [fpNeg_zero] at this

theorem filter_not_nan_map_neg (l : List FP) :
    (l.map fpNeg).filter (fun x => !x.isNaN) = (l.filter (fun x => !x.isNaN)).map fpNeg := by
  rw [List.filter_map]
  congr 1
  apply List.filter_congr 
  intro x _
  simp [isNaN_fpNeg]

theorem skipMean_map_neg (l : List FP) : skipMean (l.map fpNeg) = fpNeg (skipMean l) := by
  unfold skipMean
  rw [filter_not_nan_map_neg, List.length_map]
  by_cases h : (l.filter (fun x => !x.isNaN)).length = 0
  · rw [if_pos h, if_pos h]; rfl
  · rw [if_neg h, if_neg h, fpSum_map_neg, fpDiv_neg_left]

theorem rowBox_neg (lons : List ℚ) (row : List FP) :
    rowBox lons (row.map fpNeg) = (rowBox lons row).map fpNeg := by
  unfold rowBox
  rw [List.zip_map_right, List.filter_map, List.map_map, List.map_map]
  rfl

theorem boxVals_neg (lats lons : List ℚ) (c : List (List FP)) :
    boxVals lats lons (negComps c) = (boxVals lats lons c).map fpNeg := by
  unfold boxVals negComps
  rw [List.zip_map_right, List.filter_map, List.map_map, List.map_flatten, List.map_map]
  congr 2
  funext p
  exact rowBox_neg lons p.2

theorem boxMean_neg (lats lons : List ℚ) (c : List (List FP)) :
    boxMean lats lons (negComps c) = fpNeg (boxMean lats lons c) := by
  unfold boxMean
  rw [boxVals_neg, skipMean_map_neg]

theorem transRow_neg (w : ℚ → FP) (la : ℚ) (crow vrow : List FP) :
    transRow w la (crow.map fpNeg) vrow = fpNeg (transRow w la crow vrow) := by
  unfold transRow
  rw [List.zip_map_left, List.map_map, ← fpSum_map_neg, List.map_map]
  congr 1
  apply List.map_eq_map_iff.mpr
  intro q _
  simp only [Function.comp_apply, Prod.map_fst, Prod.map_snd, id_eq]
  rw [fpMul_neg_right, fpMul_neg_left]

theorem transform_neg (w : ℚ → FP) (c : List (List FP)) (d : SubsetData) :
    transform w (negComps c) d = (transform w c d).map fpNeg := by
  unfold transform
  rw [List.map_map]
  apply List.map_eq_map_iff.mpr
  intro slab _
  simp only [Function.comp_apply]
  rw [show negComps c = c.map (fun r => r.map fpNeg) from rfl, List.zip_map_left,
    List.zip_map_right, List.map_map, ← fpSum_map_neg, List.map_map]
  congr 1
  apply List.map_eq_map_iff.mpr
  intro p _
  simp only [Function.comp_apply, Prod.map_fst, Prod.map_snd, id_eq, Prod.map_apply]
  exact transRow_neg w p.1 p.2.1 p.2.2

theorem scaledPC_neg_neg (t : List FP) (scale corr : FP) :
    scaledPC (t.map fpNeg) scale (fpNeg corr) = scaledPC t scale corr := by
  unfold scaledPC
  rw [List.map_map]
  apply List.map_eq_map_iff.mpr
  intro x _
  simp only [Function.comp_apply]
  rw [fpMul_neg_right, fpMul_neg_left, fpMul_neg_left, fpNeg_fpNeg]

theorem compute_index_sub_eq (sqrtF : FP → FP) (w : ℚ → FP)
    (fit : SubsetData → Except String EOFModel) (y1 y2 : ℤ) (d : SubsetData)
    (model : EOFModel) (hfit : fit (selYears d y1 y2) = .ok model) :
    compute_index_sub sqrtF w fit y1 y2 d
      = finishIndex d
        (scaledPC (transform w model.comps1 d) (fpDiv (.fin 1) (sqrtF model.var1))
          (correction_factor d.lats d.lons model).1)
        (scaledPC (transform w model.comps2 d) (fpDiv (.fin 1) (sqrtF model.var2))
          (correction_factor d.lats d.lons model).2) := by
  unfold compute_index_sub
  rw [hfit]

theorem negFitMode1_ok (fit : SubsetData → Except String EOFModel) (d : SubsetData)
    (model : EOFModel) (hfit : fit d = .ok model) :
    negFitMode1 fit d = .ok ⟨negComps model.comps1, model.comps2, model.var1, model.var2⟩ := by
  unfold negFitMode1
  rw [hfit]
  rfl

theorem negFitMode2_ok (fit : SubsetData → Except String EOFModel) (d : SubsetData)
    (model : EOFModel) (hfit : fit d = .ok model) :
    negFitMode2 fit d = .ok ⟨model.comps1, negComps model.comps2, model.var1, model.var2⟩ := by
  unfold negFitMode2
  rw [hfit]
  rfl

theorem corr_neg_mode1 (lats lons : List ℚ) (m : EOFModel) (q : Q2)
    (hm : boxMean lats lons m.comps1 = .fin q) (hq : Q2.isZeroB q = false) :
    correction_factor lats lons ⟨negComps m.comps1, m.comps2, m.var1, m.var2⟩
      = (fpNeg (correction_factor lats lons m).1, (correction_factor lats lons m).2) := by
  unfold correction_factor
  simp only [boxMean_neg, hm]
  rw [show fpNeg (FP.fin q) = FP.fin (Q2.neg q) from rfl, fpLtB_zero_fin, fpLtB_zero_fin,
    Q2.posB_neg_eq hq]
  cases hp : Q2.posB q
  · simp [fpNeg, Q2.neg_neg_eq]
  · simp [fpNeg]

theorem corr_neg_mode2 (lats lons : List ℚ) (m : EOFModel) (q : Q2)
    (hm : boxMean lats lons m.comps2 = .fin q) (hq : Q2.isZeroB q = false) :
    correction_factor lats lons ⟨m.comps1, negComps m.comps2, m.var1, m.var2⟩
      = ((correction_factor lats lons m).1, fpNeg (correction_factor lats lons m).2) := by
  unfold correction_factor
  simp only [boxMean_neg, hm]
  rw [show fpNeg (FP.fin q) = FP.fin (Q2.neg q) from rfl, fpLtB_zero_fin, fpLtB_zero_fin,
    Q2.posB_neg_eq hq]
  cases hp : Q2.posB q
  · simp [fpNeg, Q2.neg_neg_eq]
  · simp [fpNeg]

theorem finishIndex_ok_fields (d : SubsetData) (pc1 pc2 : List FP) (out : ECOutput)
    (h : finishIndex d pc1 pc2 = .ok out) :
    out.pc1 = pc1 ∧ out.pc2 = pc2 ∧
    out.eindex = List.zipWith (fun x y => fpDiv (fpSub x y) sqrtTwo) pc1 pc2 ∧
    out.cindex = List.zipWith (fun x y => fpDiv (fpAdd x y) sqrtTwo) pc1 pc2 := by
  unfold finishIndex at h
  split at h
  · exact absurd h (by simp)
  · rw [Except.ok.injEq] at h
    subst h
    exact ⟨rfl, rfl, rfl, rfl⟩

/-- Concrete stand-in for `np.sqrt` in witnesses (only its value at the
explained variances used there matters). -/
def exSqrt : FP → FP := fun x => x

/-- Concrete stand-in for the latitude weights in witnesses. -/
def exW : ℚ → FP := fun _ => .fin 1

/-- A concrete fitted EOF model on a 1×1 grid. -/
def exFit1 : SubsetData → Except String EOFModel :=
  fun _ => .ok ⟨[[.fin 1]], [[.fin 1]], .fin 1, .fin 1⟩

/-- A concrete one-month anomaly field on a 1×1 tropical-Pacific grid. -/
def exField1 : GriddedField := ⟨[⟨1999, 12⟩], [0], [150], fun _ _ _ => .fin 1⟩

def fallbackOut : ECOutput := ⟨[], [], [], [], [], [], [], 0, [], []⟩

/-- Extract the payload of a successful run (used to state witnesses without
spelling out whole records). -/
def okOut (r : Except String ECOutput) : ECOutput :=
  match r with
  | .ok o => o
  | .error _ => fallbackOut

/-- C1: for every input accepted by `compute_index`, the returned E and C
series satisfy, at every time step, `E = (PC1 - PC2)/√2` and
`C = (PC1 + PC2)/√2`, where PC1, PC2 are the scaled, sign-corrected
principal components of the full series (also returned). -/
theorem thm_C1_rotation (sqrtF : FP → FP) (w : ℚ → FP)
    (fit : SubsetData → Except String EOFModel) (f : GriddedField) (y1 y2 : ℤ)
    (out : ECOutput) (h : compute_index sqrtF w fit f y1 y2 = .ok out) :
    out.eindex = List.zipWith (fun x y => fpDiv (fpSub x y) sqrtTwo) out.pc1 out.pc2 ∧
    out.cindex = List.zipWith (fun x y => fpDiv (fpAdd x y) sqrtTwo) out.pc1 out.pc2 := by
  unfold compute_index compute_index_sub at h
  split at h
  · exact absurd h (by simp)
  · obtain ⟨h1, h2, h3, h4⟩ := finishIndex_ok_fields _ _ _ _ h
    rw [← h1, ← h2] at h3 h4
    exact ⟨h3, h4⟩

/-- Witness for C1 at a concrete accepted input. -/
theorem wit_C1_rotation :
    compute_index exSqrt exW exFit1 exField1 1990 2005
        = .ok (okOut (compute_index exSqrt exW exFit1 exField1 1990 2005)) ∧
    (okOut (compute_index exSqrt exW exFit1 exField1 1990 2005)).eindex
        = List.zipWith (fun x y => fpDiv (fpSub x y) sqrtTwo)
            (okOut (compute_index exSqrt exW exFit1 exField1 1990 2005)).pc1
            (okOut (compute_index exSqrt exW exFit1 exField1 1990 2005)).pc2 :=
  ⟨by rfl, (thm_C1_rotation exSqrt exW exFit1 exField1 1990 2005 _ (by rfl)).1⟩

/-- Value equality on float data (`fin` compared by value; the special
values compared as data — note IEEE `NaN == NaN` comparison is false, this
is equality of the stored value). -/
def fpEqB : FP → FP → Bool
  | .fin x, .fin y => Q2.eqB x y
  | .inf, .inf => true
  | .neginf, .neginf => true
  | .nan, .nan => true
  | _, _ => false

def fpListEqB (l1 l2 : List FP) : Bool :=
  l1.length == l2.length && (l1.zip l2).all (fun p => fpEqB p.1 p.2)

def isOkB (r : Except String ECOutput) : Bool :=
  match r with
  | .ok _ => true
  | .error _ => false

/-- C2 (amended): negating a mode's raw spatial pattern before projection
leaves the whole `compute_index` output unchanged, provided that mode's
sign-box pattern mean is a nonzero finite value — the correction factor
then compensates exactly. -/
theorem thm_C2_sign_invariance (sqrtF : FP → FP) (w : ℚ → FP)
    (fit : SubsetData → Except String EOFModel) (f : GriddedField) (y1 y2 : ℤ)
    (model : EOFModel) (q1 q2 : Q2)
    (hfit : fit (selYears (tropicalPacific f) y1 y2) = .ok model)
    (hm1 : boxMean (tropicalPacific f).lats (tropicalPacific f).lons model.comps1 = .fin q1)
    (hq1 : Q2.isZeroB q1 = false)
    (hm2 : boxMean (tropicalPacific f).lats (tropicalPacific f).lons model.comps2 = .fin q2)
    (hq2 : Q2.isZeroB q2 = false) :
    compute_index sqrtF w (negFitMode1 fit) f y1 y2 = compute_index sqrtF w fit f y1 y2 ∧
    compute_index sqrtF w (negFitMode2 fit) f y1 y2 = compute_index sqrtF w fit f y1 y2 := by
  constructor
  · unfold compute_index
    rw [compute_index_sub_eq sqrtF w (negFitMode1 fit) y1 y2 _ _
        (negFitMode1_ok fit _ model hfit),
      compute_index_sub_eq sqrtF w fit y1 y2 _ model hfit,
      corr_neg_mode1 _ _ model q1 hm1 hq1]
    dsimp only
    rw [transform_neg, scaledPC_neg_neg]
  · unfold compute_index
    rw [compute_index_sub_eq sqrtF w (negFitMode2 fit) y1 y2 _ _
        (negFitMode2_ok fit _ model hfit),
      compute_index_sub_eq sqrtF w fit y1 y2 _ model hfit,
      corr_neg_mode2 _ _ model q2 hm2 hq2]
    dsimp only
    rw [transform_neg, scaledPC_neg_neg]

/-- Witness for C2 at a concrete input whose sign-box means are nonzero. -/
theorem wit_C2_sign_invariance :
    (boxMean (tropicalPacific exField1).lats (tropicalPacific exField1).lons
        ([[FP.fin 1]] : List (List FP)) = .fin ⟨1, 0, 1⟩) ∧
    Q2.isZeroB ⟨1, 0, 1⟩ = false ∧
    compute_index exSqrt exW (negFitMode1 exFit1) exField1 1990 2005
      = compute_index exSqrt exW exFit1 exField1 1990 2005 := by
  refine ⟨by decide, by decide, ?_⟩
  exact (thm_C2_sign_invariance exSqrt exW exFit1 exField1 1990 2005
    ⟨[[.fin 1]], [[.fin 1]], .fin 1, .fin 1⟩ ⟨1, 0, 1⟩ ⟨1, 0, 1⟩ (by rfl) (by decide)
    (by decide) (by decide) (by decide)).1

/-- A one-month field on a 1×2 grid whose data is 1 at 150°E and 0 at
160°E. -/
def exField2 : GriddedField :=
  ⟨[⟨1999, 12⟩], [0], [150, 160], fun _ _ lo => if lo = 150 then .fin 1 else .fin 0⟩

/-- A fitted model whose mode-1 pattern has sign-box mean exactly zero
(`+1` at 150°E, `-1` at 160°E) and whose mode-2 pattern has positive mean. -/
def exFit2 : SubsetData → Except String EOFModel :=
  fun _ => .ok ⟨[[.fin 1, .fin (Q2.neg 1)]], [[.fin 1, .fin 1]], .fin 1, .fin 1⟩

/-- Counterexample to C2 as stated: with a mode-1 pattern whose sign-box
mean is exactly zero, the correction factor is `-1` for both sign choices,
so negating the raw pattern flips the E index (here from `-√2` to `0`):
both runs succeed and their E series differ in value. -/
theorem cex_C2_sign_flip_at_zero_mean :
    isOkB (compute_index exSqrt exW exFit2 exField2 1990 2005) = true ∧
    isOkB (compute_index exSqrt exW (negFitMode1 exFit2) exField2 1990 2005) = true ∧
    fpListEqB
      (okOut (compute_index exSqrt exW (negFitMode1 exFit2) exField2 1990 2005)).eindex
      (okOut (compute_index exSqrt exW exFit2 exField2 1990 2005)).eindex = false := by
  exact ⟨by decide, by decide, by decide⟩

theorem fpDiv_fin_sqrtTwo (x : Q2) :
    fpDiv (.fin x) sqrtTwo = .fin (Q2.mul x ⟨0, 1, 2⟩) := by
  have hs : Q2.isZeroB Q2.sqrt2 = false := by decide
  have hinv : Q2.inv Q2.sqrt2 = ⟨0, 1, 2⟩ := by decide
  simp [fpDiv, sqrtTwo, hs, hinv]

/-- The inverse rotation recovers the PCs exactly (value-level equality in
ℚ[√2]): `(E + C)/√2 = pc1` and `(C - E)/√2 = pc2` for finite `pc1`, `pc2`. -/
theorem rot_roundtrip (p1 p2 : Q2) :
    fpEqB (fpDiv (fpAdd (fpDiv (fpSub (.fin p1) (.fin p2)) sqrtTwo)
        (fpDiv (fpAdd (.fin p1) (.fin p2)) sqrtTwo)) sqrtTwo) (.fin p1) = true ∧
    fpEqB (fpDiv (fpSub (fpDiv (fpAdd (.fin p1) (.fin p2)) sqrtTwo)
        (fpDiv (fpSub (.fin p1) (.fin p2)) sqrtTwo)) sqrtTwo) (.fin p2) = true := by
  rcases p1 with ⟨a1, b1, d1⟩
  rcases p2 with ⟨a2, b2, d2⟩
  simp only [fpSub, fpNeg, fpAdd, fpDiv_fin_sqrtTwo]
  simp only [fpAdd, fpNeg, fpDiv_fin_sqrtTwo, fpEqB, Q2.eqB, Q2.mul, Q2.add, Q2.neg,
    decide_eq_true_eq]
  constructor
  · constructor <;> ring
  · constructor <;> ring

/-- C8: for every successful `compute_index` run, the inverse rotation
`PC1 = (E + C)/√2`, `PC2 = (C - E)/√2` applied to the returned E and C
series reproduces the scaled, sign-corrected PCs at every time step with
finite values (exactly, in the exact-arithmetic idealisation). -/
theorem thm_C8_roundtrip (sqrtF : FP → FP) (w : ℚ → FP)
    (fit : SubsetData → Except String EOFModel) (f : GriddedField) (y1 y2 : ℤ)
    (out : ECOutput) (h : compute_index sqrtF w fit f y1 y2 = .ok out)
    (i : ℕ) (p1 p2 : Q2)
    (h1 : out.pc1[i]? = some (.fin p1)) (h2 : out.pc2[i]? = some (.fin p2)) :
    ∃ e c, out.eindex[i]? = some e ∧ out.cindex[i]? = some c ∧
      fpEqB (fpDiv (fpAdd e c) sqrtTwo) (.fin p1) = true ∧
      fpEqB (fpDiv (fpSub c e) sqrtTwo) (.fin p2) = true := by
  unfold compute_index compute_index_sub at h
  split at h
  · exact absurd h (by simp)
  · obtain ⟨hp1, hp2, he, hc⟩ := finishIndex_ok_fields _ _ _ _ h
    rw [← hp1, ← hp2] at he hc
    have he' : out.eindex[i]? = some (fpDiv (fpSub (.fin p1) (.fin p2)) sqrtTwo) := by
      rw [he, List.getElem?_zipWith]
      simp [h1, h2]
    have hc' : out.cindex[i]? = some (fpDiv (fpAdd (.fin p1) (.fin p2)) sqrtTwo) := by
      rw [hc, List.getElem?_zipWith]
      simp [h1, h2]
    exact ⟨_, _, he', hc', (rot_roundtrip p1 p2).1, (rot_roundtrip p1 p2).2⟩

/-- Witness for C8 at a concrete accepted input with finite PCs. -/
theorem wit_C8_roundtrip :
    compute_index exSqrt exW exFit1 exField1 1990 2005
        = .ok (okOut (compute_index exSqrt exW exFit1 exField1 1990 2005)) ∧
    (okOut (compute_index exSqrt exW exFit1 exField1 1990 2005)).pc1[0]?
        = some (.fin ⟨1, 0, 1⟩) ∧
    ∃ e c, (okOut (compute_index exSqrt exW exFit1 exField1 1990 2005)).eindex[0]? = some e ∧
      (okOut (compute_index exSqrt exW exFit1 exField1 1990 2005)).cindex[0]? = some c ∧
      fpEqB (fpDiv (fpAdd e c) sqrtTwo) (.fin ⟨1, 0, 1⟩) = true ∧
      fpEqB (fpDiv (fpSub c e) sqrtTwo) (.fin ⟨1, 0, 1⟩) = true :=
  ⟨by rfl, by decide,
    thm_C8_roundtrip exSqrt exW exFit1 exField1 1990 2005 _ (by rfl) 0 ⟨1, 0, 1⟩ ⟨1, 0, 1⟩
      (by decide) (by decide)⟩

/-- A float value that is either an exact zero or NaN (the possible values
of a projection of all-zero data under arbitrary weights and patterns). -/
def zeroOrNaN (x : FP) : Prop := (∃ q, x = .fin q ∧ Q2.isZeroB q = true) ∨ x = .nan

theorem fpMul_zero_right (x : FP) {z : Q2} (hz : Q2.isZeroB z = true) :
    zeroOrNaN (fpMul x (.fin z)) := by
  have hza : z.a = 0 ∧ z.b = 0 := by rwa [Q2.isZeroB, decide_eq_true_eq] at hz
  cases x with
  | fin a =>
      left
      exact ⟨_, rfl, by simp [Q2.mul, Q2.isZeroB, hza.1, hza.2]⟩
  | inf => right; simp [fpMul, hz]
  | neginf => right; simp [fpMul, hz]
  | nan => right; rfl

theorem fpAdd_zeroOrNaN {x y : FP} (hx : zeroOrNaN x) (hy : zeroOrNaN y) :
    zeroOrNaN (fpAdd x y) := by
  rcases hx with ⟨q1, rfl, h1⟩ | rfl
  · rcases hy with ⟨q2, rfl, h2⟩ | rfl
    · rw [Q2.isZeroB, decide_eq_true_eq] at h1 h2
      left
      exact ⟨_, rfl, by simp [fpAdd, Q2.add, Q2.isZeroB, h1.1, h1.2, h2.1, h2.2]⟩
    · right; rfl
  · right; cases y <;> rfl

theorem foldl_fpAdd_zeroOrNaN (l : List FP) :
    ∀ acc, (∀ v ∈ l, zeroOrNaN v) → zeroOrNaN acc → zeroOrNaN (l.foldl fpAdd acc) := by
  induction l with
  | nil => intro acc _ hacc; exact hacc
  | cons a t ih =>
      intro acc h hacc
      exact ih _ (fun v hv => h v (List.mem_cons_of_mem a hv))
        (fpAdd_zeroOrNaN hacc (h a (List.mem_cons_self a t)))

theorem fpSum_zeroOrNaN {l : List FP} (h : ∀ v ∈ l, zeroOrNaN v) : zeroOrNaN (fpSum l) :=
  foldl_fpAdd_zeroOrNaN l _ h (Or.inl ⟨0, rfl, by decide⟩)

theorem fpMul_nan_left (y : FP) : fpMul .nan y = .nan := by
  cases y <;> rfl

theorem pcval_nan {T corr : FP} (hT : zeroOrNaN T) : fpMul (fpMul T .inf) corr = .nan := by
  rcases hT with ⟨q, rfl, hq⟩ | rfl
  · rw [show fpMul (FP.fin q) .inf = .nan from by simp [fpMul, hq], fpMul_nan_left]
  · rw [show fpMul FP.nan FP.inf = .nan from rfl, fpMul_nan_left]

theorem transRow_zeroOrNaN (w : ℚ → FP) (la : ℚ) (crow vrow : List FP)
    (hv : ∀ v ∈ vrow, v = .fin 0) : zeroOrNaN (transRow w la crow vrow) := by
  unfold transRow
  apply fpSum_zeroOrNaN
  intro t ht
  rcases List.mem_map.mp ht with ⟨q, hq, rfl⟩
  rw [hv q.2 (List.of_mem_zip hq).2]
  exact fpMul_zero_right _ (by decide)

theorem transform_zero_vals (w : ℚ → FP) (comps : List (List FP)) (d : SubsetData)
    (hvals : ∀ slab ∈ d.vals, ∀ v2 ∈ slab, ∀ v ∈ v2, v = .fin 0) :
    ∀ x ∈ transform w comps d, zeroOrNaN x := by
  intro x hx
  unfold transform at hx
  rcases List.mem_map.mp hx with ⟨slab, hslab, rfl⟩
  apply fpSum_zeroOrNaN
  intro v hv
  rcases List.mem_map.mp hv with ⟨p, hp, rfl⟩
  exact transRow_zeroOrNaN w p.1 p.2.1 p.2.2
    (fun v hv2 => hvals slab hslab p.2.2 (List.of_mem_zip (List.of_mem_zip hp).2).2 v hv2)

theorem scaledPC_nan (t : List FP) (corr : FP) (ht : ∀ x ∈ t, zeroOrNaN x) :
    ∀ y ∈ scaledPC t .inf corr, y = .nan := by
  intro y hy
  rcases List.mem_map.mp hy with ⟨x, hx, rfl⟩
  exact pcval_nan (ht x hx)

theorem skipMean_all_nan {l : List FP} (h : ∀ v ∈ l, v = .nan) : skipMean l = .nan := by
  have hf : l.filter (fun x => !x.isNaN) = [] := by
    apply List.filter_eq_nil_iff.mpr
    intro a ha
    rw [h a ha]
    simp [FP.isNaN]
  unfold skipMean
  rw [hf]
  rfl

theorem djfSeasonal_all_nan {s : List (Ym × FP)} (h : ∀ p ∈ s, p.2 = .nan) :
    djfSeasonal s = [] := by
  unfold djfSeasonal
  have hfil : ((djfLabels s).map
      (fun lab => (lab, skipMean (seasonGroup s lab)))).filter (fun p => !p.2.isNaN) = [] := by
    apply List.filter_eq_nil_iff.mpr
    intro p hp
    rcases List.mem_map.mp hp with ⟨lab, _, rfl⟩
    have hgroup : ∀ v ∈ seasonGroup s lab, v = .nan := by
      intro v hv
      unfold seasonGroup djfFiltered at hv
      rcases List.mem_map.mp hv with ⟨pr, hpr, rfl⟩
      exact h pr (List.mem_of_mem_filter (List.mem_of_mem_filter hpr))
    rw [skipMean_all_nan hgroup]
    simp [FP.isNaN]
  rw [hfil]
  rfl

/-- C5: on an all-zero anomaly field (explained variance exactly zero, so
the scale factor `1/√0` is infinite and every scaled PC is `0 · inf = NaN`),
`compute_index` does not return NaN index values: the all-NaN seasonal PCs
are dropped by `dropna`, and `polyfit` then fails cleanly on the empty
seasonal series. -/
theorem thm_C5_zero_field (sqrtF : FP → FP) (w : ℚ → FP)
    (fit : SubsetData → Except String EOFModel) (f : GriddedField) (y1 y2 : ℤ)
    (model : EOFModel)
    (h0 : ∀ t la lo, f.val t la lo = .fin 0)
    (hfit : fit (selYears (tropicalPacific f) y1 y2) = .ok model)
    (hv1 : model.var1 = .fin 0) (hv2 : model.var2 = .fin 0)
    (hsq : sqrtF (.fin 0) = .fin 0) :
    compute_index sqrtF w fit f y1 y2 = .error "expected non-empty vector for x" := by
  unfold compute_index
  rw [compute_index_sub_eq sqrtF w fit y1 y2 _ model hfit]
  have hscale1 : fpDiv (.fin 1) (sqrtF model.var1) = .inf := by rw [hv1, hsq]; decide
  have hscale2 : fpDiv (.fin 1) (sqrtF model.var2) = .inf := by rw [hv2, hsq]; decide
  rw [hscale1, hscale2]
  have hvals : ∀ slab ∈ (tropicalPacific f).vals, ∀ v2 ∈ slab, ∀ v ∈ v2, v = .fin 0 := by
    intro slab hslab v2 hrow v hv
    rcases List.mem_map.mp hslab with ⟨t, _, rfl⟩
    rcases List.mem_map.mp hrow with ⟨la, _, rfl⟩
    rcases List.mem_map.mp hv with ⟨lo, _, rfl⟩
    exact h0 t la lo
  have hdjf1 : djfSeasonal ((tropicalPacific f).times.zip
      (scaledPC (transform w model.comps1 (tropicalPacific f)) .inf
        (correction_factor (tropicalPacific f).lats (tropicalPacific f).lons model).1)) = [] :=
    djfSeasonal_all_nan (fun p hp =>
      scaledPC_nan _ _ (transform_zero_vals w model.comps1 _ hvals) p.2 (List.of_mem_zip hp).2)
  have hdjf2 : djfSeasonal ((tropicalPacific f).times.zip
      (scaledPC (transform w model.comps2 (tropicalPacific f)) .inf
        (correction_factor (tropicalPacific f).lats (tropicalPacific f).lons model).2)) = [] :=
    djfSeasonal_all_nan (fun p hp =>
      scaledPC_nan _ _ (transform_zero_vals w model.comps2 _ hvals) p.2 (List.of_mem_zip hp).2)
  unfold finishIndex
  rw [hdjf1, hdjf2]
  rfl

/-- The all-zero anomaly field on a 1×1 tropical-Pacific grid. -/
def exFieldZ : GriddedField := ⟨[⟨1999, 12⟩], [0], [150], fun _ _ _ => .fin 0⟩

/-- A fitted model for the zero field: zero explained variance (the exact
output of an SVD of a zero matrix), arbitrary unit patterns. -/
def exFitZ : SubsetData → Except String EOFModel :=
  fun _ => .ok ⟨[[.fin 1]], [[.fin 1]], .fin 0, .fin 0⟩

/-- Witness for C5 at the concrete all-zero field. -/
theorem wit_C5_zero_field :
    (∀ t la lo, exFieldZ.val t la lo = .fin 0) ∧
    exFitZ (selYears (tropicalPacific exFieldZ) 1990 2005)
      = .ok ⟨[[.fin 1]], [[.fin 1]], .fin 0, .fin 0⟩ ∧
    exSqrt (.fin 0) = .fin 0 ∧
    compute_index exSqrt exW exFitZ exFieldZ 1990 2005
      = .error "expected non-empty vector for x" :=
  ⟨fun _ _ _ => rfl, rfl, rfl,
    thm_C5_zero_field exSqrt exW exFitZ exFieldZ 1990 2005
      ⟨[[.fin 1]], [[.fin 1]], .fin 0, .fin 0⟩ (fun _ _ _ => rfl) rfl rfl rfl rfl⟩

/-- C6: every DJF season is labelled with the January year: a month in
{Dec y, Jan y+1, Feb y+1} is resampled to the `QS-DEC` label `(y, Dec)`, and
the `pd.DateOffset(years=1)` shift relabels it `(y+1, Dec)` — concretely,
the season Dec 1999 / Jan 2000 / Feb 2000 carries the timestamp year 2000
in the alpha-fit input. -/
theorem thm_C6_season_label :
    (∀ y : ℤ, seasonStart ⟨y, 12⟩ = ⟨y, 12⟩ ∧ seasonStart ⟨y + 1, 1⟩ = ⟨y, 12⟩ ∧
      seasonStart ⟨y + 1, 2⟩ = ⟨y, 12⟩ ∧ addYear ⟨y, 12⟩ = ⟨y + 1, 12⟩) ∧
    ((djfSeasonal [(⟨1999, 12⟩, .fin 1), (⟨2000, 1⟩, .fin 2), (⟨2000, 2⟩, .fin 3)]).map
        Prod.fst = [(⟨2000, 12⟩ : Ym)] ∧ (⟨2000, 12⟩ : Ym).year = 2000) := by
  refine ⟨fun y => ⟨?_, ?_, ?_, rfl⟩, by decide⟩
  · rfl
  · simp only [seasonStart]
    norm_num
  · simp only [seasonStart]
    norm_num

/-- Counterexample to C7 as stated: the Dec 1999 value is missing (NaN),
so the 1999-12 season is incomplete, yet the seasonal aggregate is not
dropped — the skip-NaN resample mean keeps it as the mean 6 of the two
valid months, and it enters the fit input labelled year 2000. -/
theorem cex_C7_incomplete_season_kept :
    djfSeasonal [(⟨1999, 12⟩, .nan), (⟨2000, 1⟩, .fin 5), (⟨2000, 2⟩, .fin 7)]
      = [(⟨2000, 12⟩, .fin ⟨24, 0, 4⟩)] ∧
    fpEqB (.fin ⟨24, 0, 4⟩) (.fin 6) = true := by
  decide

theorem foldl_fpAdd_finite (l : List FP) :
    ∀ acc : Q2, (∀ v ∈ l, v.isFinite = true) → (l.foldl fpAdd (.fin acc)).isFinite = true := by
  induction l with
  | nil => intro acc _; rfl
  | cons a t ih =>
      intro acc h
      have ha := h a (List.mem_cons_self a t)
      cases a with
      | fin q => exact ih _ (fun v hv => h v (List.mem_cons_of_mem _ hv))
      | inf => simp [FP.isFinite] at ha
      | neginf => simp [FP.isFinite] at ha
      | nan => simp [FP.isFinite] at ha

theorem fpSum_finite {l : List FP} (h : ∀ v ∈ l, v.isFinite = true) :
    (fpSum l).isFinite = true :=
  foldl_fpAdd_finite l 0 h

/-- With no infinities present, a seasonal aggregate's skip-NaN mean is
non-NaN exactly when the season has at least one valid (finite) value. -/
theorem skipMean_not_nan_iff (l : List FP)
    (hfin : ∀ v ∈ l, v.isFinite = true ∨ v = .nan) :
    (skipMean l).isNaN = false ↔ ∃ v ∈ l, v.isFinite = true := by
  by_cases h : (l.filter (fun x => !x.isNaN)).length = 0
  · have hmean : skipMean l = .nan := by unfold skipMean; rw [if_pos h]
    have hnil : l.filter (fun x => !x.isNaN) = [] := List.length_eq_zero.mp h
    constructor
    · intro hL
      rw [hmean] at hL
      exact absurd hL (by simp [FP.isNaN])
    · rintro ⟨v, hv, hfinv⟩
      exfalso
      have hvf : v ∈ l.filter (fun x => !x.isNaN) := by
        apply List.mem_filter.mpr
        refine ⟨hv, ?_⟩
        cases v <;> simp_all [FP.isFinite, FP.isNaN]
      rw [hnil] at hvf
      exact absurd hvf (List.not_mem_nil v)
  · have hallfin : ∀ v ∈ l.filter (fun x => !x.isNaN), v.isFinite = true := by
      intro v hv
      have hv2 := List.mem_filter.mp hv
      rcases hfin v hv2.1 with hf | hnan
      · exact hf
      · rw [hnan] at hv2
        simp [FP.isNaN] at hv2
    constructor
    · intro _
      have hne : l.filter (fun x => !x.isNaN) ≠ [] := by
        intro hc
        exact h (by rw [hc]; rfl)
      obtain ⟨v, hv⟩ := List.exists_mem_of_ne_nil _ hne
      exact ⟨v, (List.mem_filter.mp hv).1, hallfin v hv⟩
    · intro _
      have hsum := fpSum_finite hallfin
      obtain ⟨q, hq⟩ : ∃ q, fpSum (l.filter (fun x => !x.isNaN)) = .fin q := by
        cases hfp : fpSum (l.filter (fun x => !x.isNaN)) <;> rw [hfp] at hsum <;>
          simp [FP.isFinite] at hsum
        · exact ⟨_, rfl⟩
      have hz : Q2.isZeroB (Q2.ofInt ((l.filter (fun x => !x.isNaN)).length : ℤ)) = false := by
        simp only [Q2.ofInt, Q2.isZeroB]
        rw [decide_eq_false_iff_not]
        rintro ⟨h1, -⟩
        exact h (by exact_mod_cast h1)
      unfold skipMean
      rw [if_neg h, hq]
      simp only [fpDiv, hz]
      simp [FP.isNaN]

/-- C7 (amended): before the fit, a December-anchored seasonal aggregate is
dropped exactly when it has no valid monthly value at all (its skip-NaN mean
is NaN); a season with at least one valid month — complete or not — is
retained (as the mean of its valid months).  Stated for series without
infinities, with the 1980 cutoff and the one-year relabel as in the code. -/
theorem thm_C7_dropna (s : List (Ym × FP))
    (hfin : ∀ p ∈ s, p.2.isFinite = true ∨ p.2 = .nan) (lab : Ym) :
    (addYear lab ∈ (djfSeasonal s).map Prod.fst) ↔
      (lab ∈ djfLabels s ∧ 1980 ≤ lab.year ∧ ∃ v ∈ seasonGroup s lab, v.isFinite = true) := by
  have hgfin : ∀ lb : Ym, ∀ v ∈ seasonGroup s lb, v.isFinite = true ∨ v = .nan := by
    intro lb v hv
    unfold seasonGroup djfFiltered at hv
    rcases List.mem_map.mp hv with ⟨pr, hpr, rfl⟩
    exact hfin pr (List.mem_of_mem_filter (List.mem_of_mem_filter hpr))
  unfold djfSeasonal
  constructor
  · intro h
    rcases List.mem_map.mp h with ⟨x, hx, hfst⟩
    rcases List.mem_map.mp hx with ⟨p, hp, rfl⟩
    have hinj : p.1 = lab := by
      rcases hpl : p.1 with ⟨py, pm⟩
      rcases hll : lab with ⟨ly, lm⟩
      rw [hpl, hll] at hfst
      simp only [addYear, Ym.mk.injEq] at hfst ⊢
      omega
    have hp2 := List.mem_filter.mp hp
    have hp3 := List.mem_filter.mp hp2.1
    rcases List.mem_map.mp hp3.1 with ⟨lab2, hlab2, hpe⟩
    have hl2 : lab2 = lab := by rw [← hpe] at hinj; exact hinj
    subst hl2
    refine ⟨hlab2, ?_, ?_⟩
    · have h19 := of_decide_eq_true hp2.2
      rwa [hinj] at h19
    apply (skipMean_not_nan_iff (seasonGroup s lab2) (hgfin lab2)).mp
    have := hp3.2
    rw [← hpe] at this
    simpa using this
  · rintro ⟨hlab, hyear, hex⟩
    apply List.mem_map.mpr
    refine ⟨(addYear lab, skipMean (seasonGroup s lab)), ?_, rfl⟩
    apply List.mem_map.mpr
    refine ⟨(lab, skipMean (seasonGroup s lab)), ?_, rfl⟩
    apply List.mem_filter.mpr
    constructor
    · apply List.mem_filter.mpr
      constructor
      · exact List.mem_map.mpr ⟨lab, hlab, rfl⟩
      · have := (skipMean_not_nan_iff (seasonGroup s lab) (hgfin lab)).mpr hex
        simpa using this
    · exact decide_eq_true hyear

/-- Witness for C7 (amended) at a concrete series: the 1999-12 season has
one NaN month and two valid months; the theorem instance decides that its
(year-shifted) label is retained. -/
theorem wit_C7_dropna :
    (∀ p ∈ [((⟨1999, 12⟩ : Ym), FP.nan), (⟨2000, 1⟩, .fin 5), (⟨2000, 2⟩, .fin 7)],
      p.2.isFinite = true ∨ p.2 = .nan) ∧
    ((addYear ⟨1999, 12⟩ ∈
        (djfSeasonal [((⟨1999, 12⟩ : Ym), FP.nan), (⟨2000, 1⟩, .fin 5),
          (⟨2000, 2⟩, .fin 7)]).map Prod.fst) ↔
      ((⟨1999, 12⟩ : Ym) ∈ djfLabels [((⟨1999, 12⟩ : Ym), FP.nan), (⟨2000, 1⟩, .fin 5),
          (⟨2000, 2⟩, .fin 7)] ∧
        1980 ≤ (⟨1999, 12⟩ : Ym).year ∧
        ∃ v ∈ seasonGroup [((⟨1999, 12⟩ : Ym), FP.nan), (⟨2000, 1⟩, .fin 5),
          (⟨2000, 2⟩, .fin 7)] ⟨1999, 12⟩, v.isFinite = true)) :=
  ⟨by decide,
    thm_C7_dropna [((⟨1999, 12⟩ : Ym), FP.nan), (⟨2000, 1⟩, .fin 5), (⟨2000, 2⟩, .fin 7)]
      (by decide) ⟨1999, 12⟩⟩

/-- C9 (amended): each mode's correction factor is `+1` or `-1`; a sign
flip (`-1`) is flagged exactly when the sign-box pattern mean is NOT
strictly positive (so also at mean exactly zero, where the claim's "exactly
when negative" fails); and whenever the mean is nonzero, the corrected mean
(factor × mean) is strictly positive. -/
theorem thm_C9_correction (lats lons : List ℚ) (model : EOFModel) (q1 q2 : Q2)
    (h1 : boxMean lats lons model.comps1 = .fin q1)
    (h2 : boxMean lats lons model.comps2 = .fin q2) :
    (((correction_factor lats lons model).1 = .fin 1 ∨
        (correction_factor lats lons model).1 = .fin (Q2.neg 1)) ∧
      ((correction_factor lats lons model).1 = .fin (Q2.neg 1) ↔ Q2.posB q1 = false) ∧
      (Q2.isZeroB q1 = false →
        fpLtB (.fin 0) (fpMul (correction_factor lats lons model).1
          (boxMean lats lons model.comps1)) = true)) ∧
    (((correction_factor lats lons model).2 = .fin 1 ∨
        (correction_factor lats lons model).2 = .fin (Q2.neg 1)) ∧
      ((correction_factor lats lons model).2 = .fin (Q2.neg 1) ↔ Q2.posB q2 = false) ∧
      (Q2.isZeroB q2 = false →
        fpLtB (.fin 0) (fpMul (correction_factor lats lons model).2
          (boxMean lats lons model.comps2)) = true)) := by
  unfold correction_factor
  rw [h1, h2, fpLtB_zero_fin, fpLtB_zero_fin]
  constructor
  · cases hp : Q2.posB q1
    · refine ⟨Or.inr rfl, by simp, fun hq => ?_⟩
      show fpLtB (.fin 0) (fpMul (.fin (Q2.neg 1)) (.fin q1)) = true
      rw [show fpMul (FP.fin (Q2.neg 1)) (FP.fin q1) = .fin (Q2.neg q1) from by
        simp [fpMul, Q2.negone_mul_eq], fpLtB_zero_fin]
      exact Q2.posB_neg_of_not_posB hq hp
    · refine ⟨Or.inl rfl, ⟨fun hc => absurd (FP.fin.inj hc) (by decide),
        fun hc => absurd hc (by simp)⟩, fun hq => ?_⟩
      show fpLtB (.fin 0) (fpMul (.fin 1) (.fin q1)) = true
      rw [show fpMul (FP.fin 1) (FP.fin q1) = .fin q1 from by
        simp [fpMul, Q2.one_mul_eq], fpLtB_zero_fin]
      exact hp
  · cases hp : Q2.posB q2
    · refine ⟨Or.inr rfl, by simp, fun hq => ?_⟩
      show fpLtB (.fin 0) (fpMul (.fin (Q2.neg 1)) (.fin q2)) = true
      rw [show fpMul (FP.fin (Q2.neg 1)) (FP.fin q2) = .fin (Q2.neg q2) from by
        simp [fpMul, Q2.negone_mul_eq], fpLtB_zero_fin]
      exact Q2.posB_neg_of_not_posB hq hp
    · refine ⟨Or.inl rfl, ⟨fun hc => absurd (FP.fin.inj hc) (by decide),
        fun hc => absurd hc (by simp)⟩, fun hq => ?_⟩
      show fpLtB (.fin 0) (fpMul (.fin 1) (.fin q2)) = true
      rw [show fpMul (FP.fin 1) (FP.fin q2) = .fin q2 from by
        simp [fpMul, Q2.one_mul_eq], fpLtB_zero_fin]
      exact hp

/-- The model returned by `exFit2`, for correction-factor statements. -/
def exModel9 : EOFModel :=
  ⟨[[.fin 1, .fin (Q2.neg 1)]], [[.fin 1, .fin 1]], .fin 1, .fin 1⟩

/-- The model returned by `exFit1`. -/
def exModel1 : EOFModel := ⟨[[.fin 1]], [[.fin 1]], .fin 1, .fin 1⟩

/-- Counterexample to C9 as stated: a pattern whose sign-box mean is
exactly zero (not negative) still gets `-1` — a sign flip is flagged
although the mean is not negative, and the corrected mean is 0, not
positive. -/
theorem cex_C9_flip_at_zero_mean :
    boxMean [0] [150, 160] exModel9.comps1 = .fin ⟨0, 0, 4⟩ ∧
    Q2.isZeroB ⟨0, 0, 4⟩ = true ∧
    fpLtB (boxMean [0] [150, 160] exModel9.comps1) (.fin 0) = false ∧
    (correction_factor [0] [150, 160] exModel9).1 = .fin (Q2.neg 1) := by
  decide

/-- Witness for C9 (amended) at a concrete model with positive box mean. -/
theorem wit_C9_correction :
    boxMean [0] [150] exModel1.comps1 = .fin ⟨1, 0, 1⟩ ∧
    ((correction_factor [0] [150] exModel1).1 = .fin 1 ∨
      (correction_factor [0] [150] exModel1).1 = .fin (Q2.neg 1)) :=
  ⟨by decide,
    (thm_C9_correction [0] [150] exModel1 ⟨1, 0, 1⟩ ⟨1, 0, 1⟩ (by decide) (by decide)).1.1⟩

/-- C10: `compute_index` first restricts to the tropical-Pacific box
20°S–20°N, 100–280°E (inclusive — xarray label slices include both
endpoints) and everything downstream is computed from that subset, so two
fields with the same axes agreeing at all grid points inside the box give
identical outputs regardless of their values outside it. -/
theorem thm_C10_noninterference (sqrtF : FP → FP) (w : ℚ → FP)
    (fit : SubsetData → Except String EOFModel) (f1 f2 : GriddedField) (y1 y2 : ℤ)
    (ht : f1.times = f2.times) (hla : f1.lats = f2.lats) (hlo : f1.lons = f2.lons)
    (hv : ∀ t ∈ f1.times, ∀ la ∈ f1.lats, ∀ lo ∈ f1.lons,
      -20 ≤ la → la ≤ 20 → 100 ≤ lo → lo ≤ 280 → f1.val t la lo = f2.val t la lo) :
    compute_index sqrtF w fit f1 y1 y2 = compute_index sqrtF w fit f2 y1 y2 := by
  unfold compute_index
  suffices h : tropicalPacific f1 = tropicalPacific f2 by rw [h]
  unfold tropicalPacific
  rw [← ht, ← hla, ← hlo]
  rw [SubsetData.mk.injEq]
  refine ⟨rfl, rfl, rfl, ?_⟩
  apply List.map_eq_map_iff.mpr
  intro t htm
  apply List.map_eq_map_iff.mpr
  intro la hla2
  apply List.map_eq_map_iff.mpr
  intro lo hlo2
  have h1 := List.mem_filter.mp hla2
  have h2 := List.mem_filter.mp hlo2
  have hb1 := of_decide_eq_true h1.2
  have hb2 := of_decide_eq_true h2.2
  exact hv t htm la h1.1 lo h2.1 hb1.1 hb1.2 hb2.1 hb2.2

/-- A field with one latitude (30°N) outside the tropical-Pacific box. -/
def exField10a : GriddedField :=
  ⟨[⟨1999, 12⟩], [0, 30], [150], fun _ la _ => if la ≤ 25 then .fin 1 else .fin 7⟩

/-- Same as `exField10a` inside the box, different at 30°N. -/
def exField10b : GriddedField :=
  ⟨[⟨1999, 12⟩], [0, 30], [150], fun _ la _ => if la ≤ 25 then .fin 1 else .fin 9⟩

/-- Witness for C10: two concrete fields differing only at 30°N. -/
theorem wit_C10_noninterference :
    (∀ t ∈ exField10a.times, ∀ la ∈ exField10a.lats, ∀ lo ∈ exField10a.lons,
      -20 ≤ la → la ≤ 20 → 100 ≤ lo → lo ≤ 280 →
        exField10a.val t la lo = exField10b.val t la lo) ∧
    compute_index exSqrt exW exFit1 exField10a 1990 2005
      = compute_index exSqrt exW exFit1 exField10b 1990 2005 := by
  have hv : ∀ t ∈ exField10a.times, ∀ la ∈ exField10a.lats, ∀ lo ∈ exField10a.lons,
      -20 ≤ la → la ≤ 20 → 100 ≤ lo → lo ≤ 280 →
        exField10a.val t la lo = exField10b.val t la lo := by
    intro t _ la _ lo _ _ h2 _ _
    show (if la ≤ 25 then FP.fin 1 else FP.fin 7) = (if la ≤ 25 then FP.fin 1 else FP.fin 9)
    rw [if_pos (by linarith), if_pos (by linarith)]
  exact ⟨hv, thm_C10_noninterference exSqrt exW exFit1 exField10a exField10b 1990 2005
    rfl rfl rfl hv⟩

/-- A field with two December months (two one-month DJF seasons). -/
def exField3 : GriddedField :=
  ⟨[⟨1999, 12⟩, ⟨2000, 12⟩], [0], [150],
   fun t _ _ => if t.year = 1999 then .fin 1 else .fin 2⟩

/-- Counterexample to C3 as stated: only 2 valid DJF seasonal points remain
for the quadratic fit, yet `compute_index` succeeds and alpha is the
minimum-norm least-squares quadratic coefficient 3/14 — no
underdetermined-fit error is raised. -/
theorem cex_C3_two_points_no_error :
    isOkB (compute_index exSqrt exW exFit1 exField3 1990 2005) = true ∧
    (okOut (compute_index exSqrt exW exFit1 exField3 1990 2005)).djf1.length = 2 ∧
    Q2.eqB (okOut (compute_index exSqrt exW exFit1 exField3 1990 2005)).alpha ⟨3, 0, 14⟩
      = true := by
  decide

/-- C3 (amended): `compute_alpha` fails only when the seasonal series is
empty (numpy's `expected non-empty vector for x`); with any nonzero number
of valid finite seasonal points — in particular 1 or 2, where the degree-2
fit is underdetermined — it returns coefficients (numpy emits only a
`RankWarning`). -/
theorem thm_C3_alpha_underdetermined (pc1 pc2 : List FP)
    (hlen : pc1.length = pc2.length)
    (hfin : ∀ v ∈ pc1 ++ pc2, v.isFinite = true) :
    (pc1 = [] → compute_alpha pc1 pc2 = .error "expected non-empty vector for x") ∧
    (pc1 ≠ [] → ∃ r, compute_alpha pc1 pc2 = .ok r) := by
  constructor
  · intro h
    subst h
    rfl
  · intro h
    unfold compute_alpha
    rw [if_neg (fun hc => h (List.length_eq_zero.mp hc)),
      if_neg (fun hc => hc hlen), if_pos (List.all_eq_true.mpr hfin)]
    exact ⟨_, rfl⟩

/-- Witness for C3 (amended) at a concrete single-point input. -/
theorem wit_C3_alpha_underdetermined :
    ([FP.fin 1].length = [FP.fin 2].length) ∧
    (∀ v ∈ [FP.fin 1] ++ [FP.fin 2], v.isFinite = true) ∧
    ∃ r, compute_alpha [FP.fin 1] [FP.fin 2] = .ok r :=
  ⟨rfl, by decide,
    (thm_C3_alpha_underdetermined [FP.fin 1] [FP.fin 2] rfl (by decide)).2 (by decide)⟩
